import Mathlib

/-!
# Voting board: snapshot normalisation and vote toggle

A shallow embedding of the reconciliation logic of `src/src/App.jsx`:

* the `onValue` snapshot callback (lines 222-260), which turns the raw value
  delivered by the realtime store into the sorted list of suggestion view models;
* the update function that `handleVote` hands to `runTransaction` (lines 322-327).

Modelling conventions.

* Store values are JavaScript values of JSON shape (`JVal`).  `undefined` is a
  constructor as well, because reading a missing property yields it.
* JavaScript numbers are modelled by the integers among them (`Int`): votes are
  `1`/`-1` and timestamps are millisecond counts.  Addition rounds its exact
  result to the nearest double (`numAdd`).  Fractions, `NaN` and the infinite
  values are outside the model.
* A JavaScript `TypeError` is the `Except.error` result.
* `Date.now()` is a read of a clock: the `k`-th read made since the start of the
  model run returns `clock k`, and the number of reads made so far is threaded
  through the callback as explicit state.
* An object is the list of its own enumerable properties in enumeration order.
-/

namespace Voter

/-- A JavaScript value of JSON shape, plus `undefined`.  An array is dense: an
array with holes enumerates like the object holding its present index keys, and
is represented by that object. -/
inductive JVal where
  | undefined : JVal
  | null : JVal
  | bool (b : Bool) : JVal
  | num (n : Int) : JVal
  | str (s : String) : JVal
  | arr (items : List JVal) : JVal
  | obj (props : List (String × JVal)) : JVal

/-- The only exception the modelled code can raise: reading a property of
`null` or `undefined`. -/
inductive JsError where
  | typeError : JsError

/-- JavaScript truthiness (`ToBoolean`), as used by `x ? a : b` and `x || y`. -/
def truthy : JVal → Bool
  | .undefined => false
  | .null => false
  | .bool b => b
  | .num n => n != 0
  | .str s => s != ""
  | .arr _ => true
  | .obj _ => true

/-- The values `null` and `undefined`, on which a property read raises and which
`?.` and `??` replace. -/
def nullish : JVal → Bool
  | .undefined => true
  | .null => true
  | _ => false

/-- Pairs every element of a list with its index key `"0"`, `"1"`, ... counted from `i`. -/
def indexed {α : Type} (i : Nat) : List α → List (String × α)
  | [] => []
  | a :: l => (toString i, a) :: indexed (i + 1) l

/-- The own enumerable string-keyed properties of a value, in enumeration order:
the properties of an object, the index properties of an array, the
one-character index properties of a string (one per character of the model
string), and nothing for the other primitives.  This is what both
`Object.entries` and object spread enumerate. -/
def ownEntries : JVal → List (String × JVal)
  | .obj props => props
  | .arr items => indexed 0 items
  | .str s => indexed 0 (s.toList.map fun c => JVal.str (String.singleton c))
  | _ => []

/-- `Object.entries(v)`: raises on `null` and `undefined`. -/
def objectEntries : JVal → Except JsError (List (String × JVal))
  | .undefined => .error .typeError
  | .null => .error .typeError
  | v => .ok (ownEntries v)

/-- `Object.values(v)`: raises on `null` and `undefined`. -/
def objectValues : JVal → Except JsError (List JVal)
  | .undefined => .error .typeError
  | .null => .error .typeError
  | v => .ok ((ownEntries v).map Prod.snd)

/-- Own-property lookup in a property list; a missing property reads as `undefined`. -/
def lookupProp (props : List (String × JVal)) (name : String) : JVal :=
  match props.lookup name with
  | some v => v
  | none => .undefined

/-- Property read `v.name` for the property names the callback uses (`votes`,
`comments`, `createdAt`, `text`, `author`, `authorId`): none of them is an index
key or `length`, and no built-in prototype defines them, so on primitives and
arrays the read gives `undefined`; on `null` and `undefined` it raises. -/
def getProp (v : JVal) (name : String) : Except JsError JVal :=
  match v with
  | .undefined => .error .typeError
  | .null => .error .typeError
  | .obj props => .ok (lookupProp props name)
  | _ => .ok .undefined

/-- A normalised comment: the fields of the object literal
`{ id: commentId, ...commentValue, createdAt: ... }` that the application reads.
`createdAt` is a number by construction. -/
structure Comment where
  id : JVal
  text : JVal
  stance : JVal
  author : JVal
  authorId : JVal
  createdAt : Int

/-- A normalised suggestion, the object literal returned at lines 242-251. -/
structure Suggestion where
  id : String
  text : JVal
  author : JVal
  createdAt : Int
  votes : JVal
  score : Int
  comments : List Comment
  authorId : JVal

/-- `Array.prototype.map` over entries with a callback that may raise and that
may read the clock: elements are processed in order, the first exception aborts
the whole map, and the count of clock reads is threaded through. -/
def mapEntries {β : Type} (f : Nat → String → JVal → Except JsError (β × Nat)) (k : Nat) :
    List (String × JVal) → Except JsError (List β × Nat)
  | [] => .ok ([], k)
  | (key, v) :: rest =>
    match f k key v with
    | .error e => .error e
    | .ok (b, k1) =>
      match mapEntries f k1 rest with
      | .error e => .error e
      | .ok (bs, k2) => .ok (b :: bs, k2)

/-- Insertion step of `jsSort`: `a` goes before the first `b` with `cmp a b ≤ 0`. -/
def sortInsert {α : Type} (cmp : α → α → Int) (a : α) : List α → List α
  | [] => [a]
  | b :: l => if cmp a b ≤ 0 then a :: b :: l else b :: sortInsert cmp a l

/-- `Array.prototype.sort(cmp)` as ECMAScript specifies it for a consistent
comparator: the stable sort in which `a` precedes `b` when `cmp a b < 0` and
elements comparing `0` keep their input order.  Both comparators of the callback
are consistent, being differences of integer keys. -/
def jsSort {α : Type} (cmp : α → α → Int) : List α → List α
  | [] => []
  | a :: l => sortInsert cmp a (jsSort cmp l)

/-- The expression `x || 0` on a number. -/
def orZero (x : Int) : Int := if x ≠ 0 then x else 0

/-- The values kept by `.filter((vote) => typeof vote === 'number')`, as numbers. -/
def numericVotes (vs : List JVal) : List Int :=
  vs.filterMap fun v => match v with
    | .num n => some n
    | _ => none

/-- Lines 225-227: `value.votes ? Object.values(value.votes).filter(...) : []`. -/
def voteEntries (value : JVal) : Except JsError (List Int) := do
  let votes ← getProp value "votes"
  if truthy votes then
    let vs ← objectValues votes
    pure (numericVotes vs)
  else
    pure []

/-- The spacing of the doubles around a magnitude `a` of at least `2 ^ 53`: the
least power of two `q` with `a < 2 ^ 53 * q`, searched upwards from `q`. -/
def doubleSpacing : Nat → Nat → Nat → Nat
  | 0, _, q => q
  | fuel + 1, a, q => if a < 2 ^ 53 * q then q else doubleSpacing fuel a (2 * q)

/-- Rounding of an exact integer result to the nearest double, ties to the even
significand: integers of magnitude below `2 ^ 53` are doubles; above, the doubles
are the multiples of the spacing.  Results beyond the largest finite double
are outside the model. -/
def roundToDouble (x : Int) : Int :=
  let a := x.natAbs
  if a < 2 ^ 53 then x
  else
    let q := doubleSpacing a a 1
    let m := a / q
    let r := a % q
    let up := if 2 * r < q then m else if q < 2 * r then m + 1
      else if m % 2 = 0 then m else m + 1
    x.sign * ((up * q : Nat) : Int)

/-- The operator `+` on two numbers: the exact sum, rounded to a double. -/
def numAdd (a b : Int) : Int := roundToDouble (a + b)

/-- Line 228: `voteEntries.reduce((acc, vote) => acc + vote, 0)`. -/
def scoreOf (entries : List Int) : Int :=
  entries.foldl (fun acc vote => numAdd acc vote) 0

/-- The timestamp coercion `typeof x === 'number' ? x : Date.now()` used at lines
233-236 and 246: the result and the new count of clock reads. -/
def coerceTime (clock : Nat → Int) (k : Nat) (x : JVal) : Int × Nat :=
  match x with
  | .num n => (n, k)
  | _ => (clock k, k + 1)

/-- Lines 230-237: the callback mapped over `Object.entries(value.comments)`.
The spread copies the own enumerable properties of `commentValue` (none for
`null`), so a copied `id` overrides `commentId`; `createdAt` is always replaced. -/
def parseComment (clock : Nat → Int) (k : Nat) (commentId : String) (commentValue : JVal) :
    Except JsError (Comment × Nat) := do
  let own := ownEntries commentValue
  let stored ← getProp commentValue "createdAt"
  let (t, k1) := coerceTime clock k stored
  pure ({ id := match own.lookup "id" with
                | some v => v
                | none => .str commentId
          text := lookupProp own "text"
          stance := lookupProp own "stance"
          author := lookupProp own "author"
          authorId := lookupProp own "authorId"
          createdAt := t }, k1)

/-- Line 240: the comparator `(a, b) => (b.createdAt || 0) - (a.createdAt || 0)`. -/
def commentCmp (a b : Comment) : Int := orZero b.createdAt - orZero a.createdAt

/-- Lines 229-240: the comments of an entry, mapped and then sorted. -/
def parseComments (clock : Nat → Int) (k : Nat) (value : JVal) :
    Except JsError (List Comment × Nat) := do
  let cs ← getProp value "comments"
  if truthy cs then
    let entries ← objectEntries cs
    let (comments, k1) ← mapEntries (parseComment clock) k entries
    pure (jsSort commentCmp comments, k1)
  else
    pure (jsSort commentCmp [], k)

/-- Lines 224-252: the callback mapped over `Object.entries(raw)`. -/
def parseEntry (clock : Nat → Int) (k : Nat) (id : String) (value : JVal) :
    Except JsError (Suggestion × Nat) := do
  let entries ← voteEntries value
  let score := scoreOf entries
  let (comments, k1) ← parseComments clock k value
  let text ← getProp value "text"
  let author ← getProp value "author"
  let stored ← getProp value "createdAt"
  let (t, k2) := coerceTime clock k1 stored
  let votes ← getProp value "votes"
  let authorId ← getProp value "authorId"
  pure ({ id := id
          text := text
          author := author
          createdAt := t
          votes := if truthy votes then votes else .obj []
          score := score
          comments := comments
          authorId := authorId }, k2)

/-- Lines 254-257: the comparator of `parsed.sort`. -/
def suggestionCmp (a b : Suggestion) : Int :=
  if b.score ≠ a.score then b.score - a.score
  else orZero b.createdAt - orZero a.createdAt

/-- Line 223: `snapshot.val() || {}`. -/
def rawOf (snapshotVal : JVal) : JVal :=
  if truthy snapshotVal then snapshotVal else .obj []

/-- Line 224: the list `parsed` before it is sorted. -/
def parseSnapshot (clock : Nat → Int) (k : Nat) (snapshotVal : JVal) :
    Except JsError (List Suggestion × Nat) := do
  let entries ← objectEntries (rawOf snapshotVal)
  mapEntries (parseEntry clock) k entries

/-- Lines 222-260: the snapshot callback.  The result is the list handed to
`setSuggestions`, with the count of clock reads made. -/
def snapshotCallback (clock : Nat → Int) (k : Nat) (snapshotVal : JVal) :
    Except JsError (List Suggestion × Nat) := do
  let (parsed, k1) ← parseSnapshot clock k snapshotVal
  pure (jsSort suggestionCmp parsed, k1)

/-- Strict equality `===` between a value read from the store and a value held
by the client.  Objects and arrays are compared by reference, and a value
deserialised from the store is never the same reference as a client value. -/
def strictEq : JVal → JVal → Bool
  | .undefined, .undefined => true
  | .null, .null => true
  | .bool a, .bool b => a == b
  | .num a, .num b => a == b
  | .str a, .str b => a == b
  | _, _ => false

/-- Lines 322-327: the update function `(currentVote) => ...` that `handleVote`
passes to `runTransaction` for the cast value `value`.  Returning `null` removes
the slot. -/
def voteTransform (value : JVal) (currentVote : JVal) : JVal :=
  if strictEq currentVote value then .null else value

/-- Creation or update of an own data property in a property list: an existing
property keeps its place and takes the new value, a new property is appended. -/
def assignOwn (props : List (String × JVal)) (key : String) (v : JVal) :
    List (String × JVal) :=
  match props with
  | [] => [(key, v)]
  | (name, x) :: rest =>
    if key = name then (name, v) :: rest else (name, x) :: assignOwn rest key v

/-- The assignment `votes[key] = v` of line 274 on the plain object `votes`, given
by its own properties.  For the key `__proto__` the assignment is taken by the
accessor inherited from `Object.prototype` and creates no own property; every
other key names no inherited accessor and gets an own property.  The value is a
result of `?? 0`, hence never `null` or `undefined`. -/
def setProp (props : List (String × JVal)) (key : String) (v : JVal) : List (String × JVal) :=
  if key = "__proto__" then props else assignOwn props key v

/-- The computed property read `v[key]` on a value that is not `null` or
`undefined`, for a key that is a client id (a UUID or a random base-36 string):
such a key is taken to be neither `length` nor the name of a member of a built-in
prototype, so the read finds an own enumerable property or gives `undefined`. -/
def readKey (v : JVal) (key : String) : JVal :=
  lookupProp (ownEntries v) key

/-- Line 273: `suggestion.votes?.[clientIdRef.current] ?? 0`. -/
def userVote (clientId : String) (suggestion : Suggestion) : JVal :=
  let read := if nullish suggestion.votes then JVal.undefined
    else readKey suggestion.votes clientId
  if nullish read then .num 0 else read

/-- Lines 270-277: the object `votes` built by the loop over `suggestions`. -/
def voteMap (clientId : String) (suggestions : List Suggestion) : List (String × JVal) :=
  suggestions.foldl
    (fun votes suggestion => setProp votes suggestion.id (userVote clientId suggestion)) []

/-- Line 458: `voteMap[suggestion.id]`, the `currentVote` handed to a suggestion
card: `some v` when the read is answered by the own property `v` of `voteMap`,
`none` when it is answered by the prototype chain of `voteMap`, which is the case
for the key `__proto__` (the read gives the prototype object) and for a key that
has no own property. -/
def currentVote (clientId : String) (suggestions : List Suggestion) (suggestion : Suggestion) :
    Option JVal :=
  if suggestion.id = "__proto__" then none
  else (voteMap clientId suggestions).lookup suggestion.id

/-! ## Predicates used to state the properties -/

/-- The order the specification words for the suggestion list: higher score
first, and among equal scores the later `createdAt` first. -/
def rankedBefore (a b : Suggestion) : Prop :=
  a.score > b.score ∨ (a.score = b.score ∧ a.createdAt ≥ b.createdAt)

/-- The score as the specification words it: every value of the vote map that
is a number is added, every other value adds nothing. -/
def numericSum (votes : List (String × JVal)) : Int :=
  (votes.map fun p => match p.2 with
    | .num n => n
    | _ => 0).sum

/-- Whether every running total of the numbers `l`, added in order onto `acc`,
is a safe integer, that is of magnitude below `2 ^ 53`. -/
def totalsSafeFrom (acc : Int) : List Int → Bool
  | [] => true
  | v :: l => decide ((acc + v).natAbs < 2 ^ 53) && totalsSafeFrom (acc + v) l

/-- Whether every running total of the numeric values of a vote map, taken in
enumeration order from `0`, is a safe integer. -/
def totalsSafe (votes : List (String × JVal)) : Bool :=
  totalsSafeFrom 0 (numericVotes (votes.map Prod.snd))

/-- The comment entries that the callback visits under a suggestion entry:
those of `value.comments` when that field is truthy, none otherwise. -/
def commentEntries (value : JVal) : List (String × JVal) :=
  match value with
  | .obj props =>
    if truthy (lookupProp props "comments") then ownEntries (lookupProp props "comments") else []
  | _ => []

/-- A suggestion entry that is not `null` and none of whose visited comment
entries is `null`. -/
def entryReadable (value : JVal) : Bool :=
  !nullish value && (commentEntries value).all fun e => !nullish e.2

/-- A raw snapshot all of whose suggestion entries are readable. -/
def snapshotReadable (snapshotVal : JVal) : Bool :=
  (ownEntries (rawOf snapshotVal)).all fun e => entryReadable e.2

/-- The total part of `getProp`: the value a property read gives when it does
not raise. -/
def readProp (v : JVal) (name : String) : JVal :=
  match v with
  | .obj props => lookupProp props name
  | _ => .undefined

/-! ## Example inputs -/

/-- A clock whose reads are `5000, 5001, 5002, ...`. -/
def exampleClock : Nat → Int := fun k => 5000 + k

/-- The snapshot of end-to-end scenario 2. -/
def scenario2Snapshot : JVal :=
  .obj [("s1", .obj [("text", .str "Add coffee machine"), ("author", .str "Ana"),
    ("authorId", .str "c1"), ("createdAt", .num 1000),
    ("votes", .obj [("c1", .num 1), ("c2", .num (-1))]), ("comments", .obj [])])]

/-- The suggestion list of end-to-end scenario 2. -/
def scenario2Result : List Suggestion :=
  [{ id := "s1", text := .str "Add coffee machine", author := .str "Ana", createdAt := 1000,
     votes := .obj [("c1", .num 1), ("c2", .num (-1))], score := 0, comments := [],
     authorId := .str "c1" }]

/-- Three suggestions: scores `1`, `2`, `1` and creation times `10`, `20`, `30`;
the second has two comments, one without a stored time. -/
def rankingSnapshot : JVal :=
  .obj [("a", .obj [("text", .str "A"), ("createdAt", .num 10),
          ("votes", .obj [("c1", .num 1)])]),
        ("b", .obj [("text", .str "B"), ("createdAt", .num 20),
          ("votes", .obj [("c1", .num 1), ("c2", .num 1), ("c3", .str "up")]),
          ("comments", .obj [("k1", .obj [("text", .str "old"), ("createdAt", .num 7)]),
                             ("k2", .obj [("text", .str "new")])])]),
        ("c", .obj [("text", .str "C"), ("createdAt", .num 30),
          ("votes", .obj [("c2", .num 1)])])]

/-- The callback's result on `rankingSnapshot`. -/
def rankingResult : List Suggestion :=
  [{ id := "b", text := .str "B", author := .undefined, createdAt := 20,
     votes := .obj [("c1", .num 1), ("c2", .num 1), ("c3", .str "up")], score := 2,
     comments := [⟨.str "k2", .str "new", .undefined, .undefined, .undefined, 5000⟩,
                  ⟨.str "k1", .str "old", .undefined, .undefined, .undefined, 7⟩],
     authorId := .undefined },
   { id := "c", text := .str "C", author := .undefined, createdAt := 30,
     votes := .obj [("c2", .num 1)], score := 1, comments := [], authorId := .undefined },
   { id := "a", text := .str "A", author := .undefined, createdAt := 10,
     votes := .obj [("c1", .num 1)], score := 1, comments := [], authorId := .undefined }]

/-- Two suggestions with the same score and the same creation time. -/
def tieSnapshot : JVal :=
  .obj [("a", .obj [("createdAt", .num 1000)]), ("b", .obj [("createdAt", .num 1000)])]

/-- The callback's result on `tieSnapshot`. -/
def tieResult : List Suggestion :=
  [{ id := "a", text := .undefined, author := .undefined, createdAt := 1000,
     votes := .obj [], score := 0, comments := [], authorId := .undefined },
   { id := "b", text := .undefined, author := .undefined, createdAt := 1000,
     votes := .obj [], score := 0, comments := [], authorId := .undefined }]

/-- Two entries lacking optional fields: the first has only a text, the second
has votes and a numeric `createdAt` but no comments. -/
def sparseSnapshot : JVal :=
  .obj [("s1", .obj [("text", .str "Only text")]),
        ("s2", .obj [("text", .str "Voted"), ("createdAt", .num 42),
          ("votes", .obj [("c1", .num 1)])])]

/-- The callback's result on `sparseSnapshot`. -/
def sparseResult : List Suggestion :=
  [{ id := "s2", text := .str "Voted", author := .undefined, createdAt := 42,
     votes := .obj [("c1", .num 1)], score := 1, comments := [], authorId := .undefined },
   { id := "s1", text := .str "Only text", author := .undefined, createdAt := 5000,
     votes := .obj [], score := 0, comments := [], authorId := .undefined }]

/-- A badly shaped snapshot without `null` entries: an array root holding a
number, a string, and a record whose `votes` is a string and whose `comments` is
an array of primitives. -/
def malformedSnapshot : JVal :=
  .arr [.num 3, .str "ab",
    .obj [("votes", .str "up"), ("comments", .arr [.bool true, .str "x"]),
      ("createdAt", .str "yesterday")]]

/-- A suggestion entry with three comments, the second without a stored time. -/
def commentedEntry : JVal :=
  .obj [("text", .str "Idea"), ("createdAt", .num 100),
    ("comments", .obj [("k1", .obj [("text", .str "first"), ("createdAt", .num 7)]),
                       ("k2", .obj [("text", .str "second"), ("stance", .str "pro")]),
                       ("k3", .obj [("text", .str "third"), ("createdAt", .num 9)])])]

/-- The per-entry callback's result on `commentedEntry` under key `s1`. -/
def commentedResult : Suggestion :=
  { id := "s1", text := .str "Idea", author := .undefined, createdAt := 100,
    votes := .obj [], score := 0,
    comments := [⟨.str "k2", .str "second", .str "pro", .undefined, .undefined, 5000⟩,
                 ⟨.str "k3", .str "third", .undefined, .undefined, .undefined, 9⟩,
                 ⟨.str "k1", .str "first", .undefined, .undefined, .undefined, 7⟩],
    authorId := .undefined }

/-- One suggestion whose vote map stores `5` under client `c1`. -/
def oddVoteSnapshot : JVal :=
  .obj [("s1", .obj [("text", .str "Idea"), ("createdAt", .num 100),
    ("votes", .obj [("c1", .num 5), ("c2", .num (-1))])])]

/-- The callback's result on `oddVoteSnapshot`. -/
def oddVoteResult : List Suggestion :=
  [{ id := "s1", text := .str "Idea", author := .undefined, createdAt := 100,
     votes := .obj [("c1", .num 5), ("c2", .num (-1))], score := 4, comments := [],
     authorId := .undefined }]

/-- A suggestion entry whose single comment, stored under key `k1`, carries its
own `id` field. -/
def ownIdEntry : JVal :=
  .obj [("text", .str "Idea"), ("createdAt", .num 100),
    ("comments", .obj [("k1", .obj [("id", .str "other"), ("text", .str "hi"),
      ("stance", .str "pro"), ("author", .str "Ana"), ("authorId", .str "c1"),
      ("createdAt", .num 7)])])]

/-- The per-entry callback's result on `ownIdEntry` under key `s1`. -/
def ownIdResult : Suggestion :=
  { id := "s1", text := .str "Idea", author := .undefined, createdAt := 100,
    votes := .obj [], score := 0,
    comments := [⟨.str "other", .str "hi", .str "pro", .str "Ana", .str "c1", 7⟩],
    authorId := .undefined }

/-- A vote map holding `2^53`, `1` and `1`. -/
def bigVotes : JVal :=
  .obj [("c1", .num 9007199254740992), ("c2", .num 1), ("c3", .num 1)]

/-- One suggestion whose votes are `bigVotes`. -/
def bigVoteSnapshot : JVal :=
  .obj [("s1", .obj [("text", .str "Idea"), ("createdAt", .num 100), ("votes", bigVotes)])]

/-- The callback's result on `bigVoteSnapshot`. -/
def bigVoteResult : List Suggestion :=
  [{ id := "s1", text := .str "Idea", author := .undefined, createdAt := 100,
     votes := bigVotes, score := 9007199254740992, comments := [], authorId := .undefined }]

/-- One suggestion entry that lacks `votes` and `createdAt` and whose only
comment entry is `null`. -/
def nullCommentSnapshot : JVal :=
  .obj [("s1", .obj [("text", .str "x"), ("comments", .obj [("k1", .null)])])]

/-! ## Sorting -/

theorem sortInsert_perm {α : Type} (cmp : α → α → Int) (a : α) (l : List α) :
    (sortInsert cmp a l).Perm (a :: l) := by
  induction l with
  | nil => exact List.Perm.refl _
  | cons b l ih =>
    unfold sortInsert
    split
    · exact List.Perm.refl _
    · exact (List.Perm.cons b ih).trans (List.Perm.swap a b l)

theorem jsSort_perm {α : Type} (cmp : α → α → Int) (l : List α) :
    (jsSort cmp l).Perm l := by
  induction l with
  | nil => exact List.Perm.refl _
  | cons a l ih =>
    exact (sortInsert_perm cmp a (jsSort cmp l)).trans (List.Perm.cons a ih)

theorem sortInsert_pairwise {α : Type} (cmp : α → α → Int)
    (htot : ∀ a b, cmp a b ≤ 0 ∨ cmp b a ≤ 0)
    (htrans : ∀ a b c, cmp a b ≤ 0 → cmp b c ≤ 0 → cmp a c ≤ 0)
    (a : α) (l : List α) (hl : l.Pairwise fun x y => cmp x y ≤ 0) :
    (sortInsert cmp a l).Pairwise fun x y => cmp x y ≤ 0 := by
  induction l with
  | nil => simp [sortInsert]
  | cons b l ih =>
    have hb := List.pairwise_cons.mp hl
    unfold sortInsert
    split
    · rename_i hab
      refine List.pairwise_cons.mpr ⟨?_, hl⟩
      intro x hx
      rcases List.mem_cons.mp hx with rfl | hx
      · exact hab
      · exact htrans _ _ _ hab (hb.1 x hx)
    · rename_i hab
      refine List.pairwise_cons.mpr ⟨?_, ih hb.2⟩
      intro x hx
      have hx2 := (sortInsert_perm cmp a l).subset hx
      rcases List.mem_cons.mp hx2 with rfl | hx3
      · rcases htot x b with h | h
        · exact absurd h hab
        · exact h
      · exact hb.1 x hx3

theorem jsSort_pairwise {α : Type} (cmp : α → α → Int)
    (htot : ∀ a b, cmp a b ≤ 0 ∨ cmp b a ≤ 0)
    (htrans : ∀ a b c, cmp a b ≤ 0 → cmp b c ≤ 0 → cmp a c ≤ 0)
    (l : List α) : (jsSort cmp l).Pairwise fun x y => cmp x y ≤ 0 := by
  induction l with
  | nil => simp [jsSort]
  | cons a l ih => exact sortInsert_pairwise cmp htot htrans a _ ih

theorem orZero_eq (x : Int) : orZero x = x := by
  unfold orZero
  split
  · rfl
  · omega

theorem suggestionCmp_le_iff (a b : Suggestion) :
    suggestionCmp a b ≤ 0 ↔ rankedBefore a b := by
  unfold suggestionCmp rankedBefore
  rw [orZero_eq, orZero_eq]
  split
  · rename_i h
    constructor
    · intro h1; left; omega
    · rintro (h1 | ⟨h1, _⟩)
      · omega
      · exact absurd h1.symm h
  · rename_i h
    have h2 : b.score = a.score := by
      by_contra hne
      exact h hne
    constructor
    · intro h1; right; exact ⟨h2.symm, by omega⟩
    · rintro (h1 | ⟨_, h1⟩)
      · omega
      · omega

theorem commentCmp_le_iff (a b : Comment) :
    commentCmp a b ≤ 0 ↔ a.createdAt ≥ b.createdAt := by
  unfold commentCmp
  rw [orZero_eq, orZero_eq]
  omega

theorem jsSort_suggestions_ranked (l : List Suggestion) :
    (jsSort suggestionCmp l).Pairwise rankedBefore := by
  have h := jsSort_pairwise suggestionCmp
    (by
      intro a b
      rw [suggestionCmp_le_iff, suggestionCmp_le_iff]
      unfold rankedBefore
      omega)
    (by
      intro a b c
      rw [suggestionCmp_le_iff, suggestionCmp_le_iff, suggestionCmp_le_iff]
      unfold rankedBefore
      omega) l
  exact h.imp fun {a b} hab => (suggestionCmp_le_iff a b).mp hab

theorem jsSort_comments_newest_first (l : List Comment) :
    (jsSort commentCmp l).Pairwise fun a b => a.createdAt ≥ b.createdAt := by
  have h := jsSort_pairwise commentCmp
    (by
      intro a b
      rw [commentCmp_le_iff, commentCmp_le_iff]
      omega)
    (by
      intro a b c
      rw [commentCmp_le_iff, commentCmp_le_iff, commentCmp_le_iff]
      omega) l
  exact h.imp fun {a b} hab => (commentCmp_le_iff a b).mp hab

/-! ## Reading entries -/

theorem getProp_of_not_nullish {v : JVal} (h : nullish v = false) (name : String) :
    getProp v name = .ok (readProp v name) := by
  cases v <;> simp_all [nullish, getProp, readProp]

theorem getProp_of_nullish {v : JVal} (h : nullish v = true) (name : String) :
    getProp v name = .error .typeError := by
  cases v <;> simp_all [nullish, getProp]

theorem ownEntries_of_not_truthy {v : JVal} (h : truthy v = false) : ownEntries v = [] := by
  cases v <;> simp_all [truthy, ownEntries, indexed]

theorem objectEntries_of_truthy {v : JVal} (h : truthy v = true) :
    objectEntries v = .ok (ownEntries v) := by
  cases v <;> simp_all [truthy, objectEntries]

theorem objectValues_of_truthy {v : JVal} (h : truthy v = true) :
    objectValues v = .ok ((ownEntries v).map Prod.snd) := by
  cases v <;> simp_all [truthy, objectValues]

theorem roundToDouble_of_safe {x : Int} (h : x.natAbs < 2 ^ 53) : roundToDouble x = x := by
  unfold roundToDouble
  simp only [h, if_true]

theorem foldl_numAdd_eq_sum (l : List Int) (a : Int) (h : totalsSafeFrom a l = true) :
    l.foldl (fun acc vote => numAdd acc vote) a = a + l.sum := by
  induction l generalizing a with
  | nil => simp
  | cons x l ih =>
    simp only [totalsSafeFrom, Bool.and_eq_true, decide_eq_true_eq] at h
    rw [List.foldl_cons, numAdd, roundToDouble_of_safe h.1, ih _ h.2, List.sum_cons, add_assoc]

theorem sum_numericVotes (l : List (String × JVal)) :
    (numericVotes (l.map Prod.snd)).sum = numericSum l := by
  induction l with
  | nil => simp [numericVotes, numericSum]
  | cons p l ih =>
    obtain ⟨key, v⟩ := p
    unfold numericVotes numericSum at *
    cases v <;> simp_all [List.filterMap_cons]

theorem scoreOf_numericVotes (l : List (String × JVal)) (h : totalsSafe l = true) :
    scoreOf (numericVotes (l.map Prod.snd)) = numericSum l := by
  unfold scoreOf
  rw [foldl_numAdd_eq_sum _ _ h, zero_add, sum_numericVotes]

theorem voteEntries_of_not_nullish {value : JVal} (h : nullish value = false) :
    voteEntries value
      = .ok (numericVotes ((ownEntries (readProp value "votes")).map Prod.snd)) := by
  unfold voteEntries
  rw [getProp_of_not_nullish h]
  by_cases ht : truthy (readProp value "votes") = true
  · simp [bind, Except.bind, ht, objectValues_of_truthy ht, pure, Except.pure]
  · have hf : truthy (readProp value "votes") = false := by simpa using ht
    simp [bind, Except.bind, hf, ownEntries_of_not_truthy hf, pure, Except.pure, numericVotes]

theorem coerceTime_le (clock : Nat → Int) (k : Nat) (x : JVal) :
    k ≤ (coerceTime clock k x).2 := by
  cases x <;> simp [coerceTime]

theorem coerceTime_num (clock : Nat → Int) (k : Nat) (n : Int) :
    coerceTime clock k (.num n) = (n, k) := rfl

theorem coerceTime_not_num (clock : Nat → Int) (k : Nat) {x : JVal} (h : ∀ n, x ≠ .num n) :
    coerceTime clock k x = (clock k, k + 1) := by
  cases x <;> simp_all [coerceTime]

/-! ## The map over entries -/

theorem mapEntries_ok {β : Type} (f : Nat → String → JVal → Except JsError (β × Nat))
    (hmono : ∀ k key v b k1, f k key v = .ok (b, k1) → k ≤ k1) :
    ∀ (es : List (String × JVal)) (k : Nat) (bs : List β) (k2 : Nat),
      mapEntries f k es = .ok (bs, k2) →
      k ≤ k2 ∧ List.Forall₂
        (fun e b => ∃ i j, k ≤ i ∧ j ≤ k2 ∧ f i e.1 e.2 = .ok (b, j)) es bs := by
  intro es
  induction es with
  | nil =>
    intro k bs k2 h
    simp only [mapEntries, Except.ok.injEq, Prod.mk.injEq] at h
    obtain ⟨rfl, rfl⟩ := h
    exact ⟨le_refl _, List.Forall₂.nil⟩
  | cons e es ih =>
    intro k bs k2 h
    obtain ⟨key, v⟩ := e
    unfold mapEntries at h
    cases hf : f k key v with
    | error err => simp [hf] at h
    | ok r =>
      obtain ⟨b, k1⟩ := r
      cases hr : mapEntries f k1 es with
      | error err => simp [hf, hr] at h
      | ok r2 =>
        obtain ⟨bs2, k3⟩ := r2
        simp only [hf, hr, Except.ok.injEq, Prod.mk.injEq] at h
        obtain ⟨rfl, rfl⟩ := h
        have h1 := hmono k key v b k1 hf
        obtain ⟨h2, h3⟩ := ih k1 bs2 k3 hr
        refine ⟨le_trans h1 h2, List.Forall₂.cons ⟨k, k1, le_refl _, h2, hf⟩ ?_⟩
        exact h3.imp fun {x y} ⟨i, j, hi, hj, hij⟩ => ⟨i, j, le_trans h1 hi, hj, hij⟩

theorem mapEntries_total {β : Type} (f : Nat → String → JVal → Except JsError (β × Nat))
    (es : List (String × JVal))
    (h : ∀ e ∈ es, ∀ k, ∃ b k1, f k e.1 e.2 = .ok (b, k1)) :
    ∀ k, ∃ bs k2, mapEntries f k es = .ok (bs, k2) := by
  induction es with
  | nil => intro k; exact ⟨[], k, rfl⟩
  | cons e es ih =>
    intro k
    obtain ⟨key, v⟩ := e
    obtain ⟨b, k1, hb⟩ := h (key, v) (List.mem_cons_self _ _) k
    obtain ⟨bs, k2, hbs⟩ := ih (fun e he => h e (List.mem_cons_of_mem _ he)) k1
    exact ⟨b :: bs, k2, by simp [mapEntries, hb, hbs]⟩

/-! ## The per-comment and per-entry callbacks -/

theorem parseComment_of_not_nullish (clock : Nat → Int) (k : Nat) (commentId : String)
    {commentValue : JVal} (h : nullish commentValue = false) :
    parseComment clock k commentId commentValue
      = .ok ({ id := match (ownEntries commentValue).lookup "id" with
                     | some v => v
                     | none => .str commentId
               text := lookupProp (ownEntries commentValue) "text"
               stance := lookupProp (ownEntries commentValue) "stance"
               author := lookupProp (ownEntries commentValue) "author"
               authorId := lookupProp (ownEntries commentValue) "authorId"
               createdAt := (coerceTime clock k (readProp commentValue "createdAt")).1 },
             (coerceTime clock k (readProp commentValue "createdAt")).2) := by
  unfold parseComment
  rw [getProp_of_not_nullish h]
  rfl

theorem parseComment_of_nullish (clock : Nat → Int) (k : Nat) (commentId : String)
    {commentValue : JVal} (h : nullish commentValue = true) :
    parseComment clock k commentId commentValue = .error .typeError := by
  unfold parseComment
  rw [getProp_of_nullish h]
  rfl

theorem parseComment_mono (clock : Nat → Int) (k : Nat) (commentId : String)
    (commentValue : JVal) (c : Comment) (k1 : Nat)
    (h : parseComment clock k commentId commentValue = .ok (c, k1)) : k ≤ k1 := by
  cases hn : nullish commentValue with
  | true => rw [parseComment_of_nullish clock k commentId hn] at h; cases h
  | false =>
    rw [parseComment_of_not_nullish clock k commentId hn] at h
    simp only [Except.ok.injEq, Prod.mk.injEq] at h
    rw [← h.2]
    exact coerceTime_le _ _ _

theorem commentEntries_eq (value : JVal) :
    commentEntries value
      = if truthy (readProp value "comments") then ownEntries (readProp value "comments")
        else [] := by
  cases value <;> simp [commentEntries, readProp, truthy]

theorem parseComments_of_not_nullish (clock : Nat → Int) (k : Nat) {value : JVal}
    (h : nullish value = false) :
    parseComments clock k value
      = match mapEntries (parseComment clock) k (commentEntries value) with
        | .error e => .error e
        | .ok (mapped, k1) => .ok (jsSort commentCmp mapped, k1) := by
  unfold parseComments
  rw [getProp_of_not_nullish h, commentEntries_eq]
  by_cases ht : truthy (readProp value "comments") = true
  · simp only [bind, Except.bind, ht, if_true, objectEntries_of_truthy ht, pure, Except.pure]
    cases mapEntries (parseComment clock) k (ownEntries (readProp value "comments")) <;> rfl
  · have hf : truthy (readProp value "comments") = false := by simpa using ht
    simp [bind, Except.bind, hf, pure, Except.pure, mapEntries]

theorem parseEntry_of_nullish (clock : Nat → Int) (k : Nat) (id : String) {value : JVal}
    (h : nullish value = true) : parseEntry clock k id value = .error .typeError := by
  unfold parseEntry voteEntries
  rw [getProp_of_nullish h]
  rfl

theorem parseEntry_of_not_nullish (clock : Nat → Int) (k : Nat) (id : String) {value : JVal}
    (h : nullish value = false) :
    parseEntry clock k id value
      = match mapEntries (parseComment clock) k (commentEntries value) with
        | .error e => .error e
        | .ok (mapped, k1) =>
          .ok ({ id := id
                 text := readProp value "text"
                 author := readProp value "author"
                 createdAt := (coerceTime clock k1 (readProp value "createdAt")).1
                 votes := if truthy (readProp value "votes") then readProp value "votes"
                          else .obj []
                 score := scoreOf
                   (numericVotes ((ownEntries (readProp value "votes")).map Prod.snd))
                 comments := jsSort commentCmp mapped
                 authorId := readProp value "authorId" },
               (coerceTime clock k1 (readProp value "createdAt")).2) := by
  unfold parseEntry
  rw [voteEntries_of_not_nullish h, parseComments_of_not_nullish clock k h]
  simp only [getProp_of_not_nullish h, bind, Except.bind]
  cases mapEntries (parseComment clock) k (commentEntries value) <;> rfl

/-- What a successful run of the per-entry callback produced. -/
theorem parseEntry_ok {clock : Nat → Int} {k : Nat} {id : String} {value : JVal}
    {s : Suggestion} {k2 : Nat} (h : parseEntry clock k id value = .ok (s, k2)) :
    nullish value = false ∧ ∃ mapped k1,
      mapEntries (parseComment clock) k (commentEntries value) = .ok (mapped, k1) ∧
      k ≤ k1 ∧ k1 ≤ k2 ∧
      k2 = (coerceTime clock k1 (readProp value "createdAt")).2 ∧
      s.id = id ∧ s.text = readProp value "text" ∧ s.author = readProp value "author" ∧
      s.authorId = readProp value "authorId" ∧
      s.createdAt = (coerceTime clock k1 (readProp value "createdAt")).1 ∧
      s.score = scoreOf (numericVotes ((ownEntries (readProp value "votes")).map Prod.snd)) ∧
      s.comments = jsSort commentCmp mapped := by
  cases hn : nullish value with
  | true => rw [parseEntry_of_nullish clock k id hn] at h; cases h
  | false =>
    refine ⟨rfl, ?_⟩
    rw [parseEntry_of_not_nullish clock k id hn] at h
    cases hm : mapEntries (parseComment clock) k (commentEntries value) with
    | error e => rw [hm] at h; cases h
    | ok r =>
      obtain ⟨mapped, k1⟩ := r
      rw [hm] at h
      simp only [Except.ok.injEq, Prod.mk.injEq] at h
      obtain ⟨rfl, rfl⟩ := h
      exact ⟨mapped, k1, rfl, (mapEntries_ok _ (parseComment_mono clock) _ _ _ _ hm).1,
        coerceTime_le _ _ _, rfl, rfl, rfl, rfl, rfl, rfl, rfl, rfl⟩

theorem parseEntry_mono (clock : Nat → Int) (k : Nat) (id : String) (value : JVal)
    (s : Suggestion) (k2 : Nat) (h : parseEntry clock k id value = .ok (s, k2)) : k ≤ k2 := by
  obtain ⟨_, mapped, k1, _, h1, h2, _⟩ := parseEntry_ok h
  exact le_trans h1 h2

/-! ## The snapshot callback -/

theorem truthy_rawOf (snapshotVal : JVal) : truthy (rawOf snapshotVal) = true := by
  unfold rawOf
  split
  · assumption
  · rfl

theorem parseSnapshot_eq (clock : Nat → Int) (k : Nat) (snapshotVal : JVal) :
    parseSnapshot clock k snapshotVal
      = mapEntries (parseEntry clock) k (ownEntries (rawOf snapshotVal)) := by
  unfold parseSnapshot
  rw [objectEntries_of_truthy (truthy_rawOf snapshotVal)]
  rfl

/-- What a successful run of the snapshot callback produced: the sorted `parsed` list. -/
theorem snapshotCallback_ok {clock : Nat → Int} {k : Nat} {snapshotVal : JVal}
    {out : List Suggestion} {k2 : Nat}
    (h : snapshotCallback clock k snapshotVal = .ok (out, k2)) :
    ∃ parsed, parseSnapshot clock k snapshotVal = .ok (parsed, k2) ∧
      out = jsSort suggestionCmp parsed := by
  unfold snapshotCallback at h
  cases hp : parseSnapshot clock k snapshotVal with
  | error e => rw [hp] at h; cases h
  | ok r =>
    obtain ⟨parsed, k1⟩ := r
    rw [hp] at h
    simp only [bind, Except.bind, pure, Except.pure, Except.ok.injEq, Prod.mk.injEq] at h
    obtain ⟨rfl, rfl⟩ := h
    exact ⟨parsed, rfl, rfl⟩

theorem snapshotCallback_of_parsed {clock : Nat → Int} {k : Nat} {snapshotVal : JVal}
    {parsed : List Suggestion} {k2 : Nat}
    (h : parseSnapshot clock k snapshotVal = .ok (parsed, k2)) :
    snapshotCallback clock k snapshotVal = .ok (jsSort suggestionCmp parsed, k2) := by
  unfold snapshotCallback
  rw [h]
  rfl

/-- Every parsed suggestion comes from the entry at the same position, through a run
of the per-entry callback that starts and ends within the clock reads of the whole run. -/
theorem parseSnapshot_forall₂ {clock : Nat → Int} {k : Nat} {snapshotVal : JVal}
    {parsed : List Suggestion} {k2 : Nat}
    (h : parseSnapshot clock k snapshotVal = .ok (parsed, k2)) :
    List.Forall₂
      (fun e s => ∃ i j, k ≤ i ∧ j ≤ k2 ∧ parseEntry clock i e.1 e.2 = .ok (s, j))
      (ownEntries (rawOf snapshotVal)) parsed := by
  rw [parseSnapshot_eq] at h
  exact (mapEntries_ok _ (parseEntry_mono clock) _ _ _ _ h).2

/-! ## Properties of the snapshot callback -/

/-- Counterexample to C1 as stated: votes `{c1: 2^53, c2: 1, c3: 1}`.  The sum of
the three numbers is `9007199254740994`, but each addition of `1` onto `2^53`
rounds back to `2^53`, so the score is `9007199254740992`. -/
theorem score_rounds_large_votes :
    snapshotCallback exampleClock 0 bigVoteSnapshot = .ok (bigVoteResult, 0) ∧
    (ownEntries (rawOf bigVoteSnapshot)).map Prod.fst = ["s1"] ∧
    bigVoteResult.map (fun s => s.id) = ["s1"] ∧
    (∀ e ∈ ownEntries (rawOf bigVoteSnapshot), getProp e.2 "votes" = .ok bigVotes) ∧
    bigVoteResult.map (fun s => s.score) = [9007199254740992] ∧
    numericSum (ownEntries bigVotes) = 9007199254740994 ∧
    bigVoteResult.map (fun s => s.score) ≠ [numericSum (ownEntries bigVotes)] := by
  refine ⟨rfl, rfl, rfl, ?_, rfl, rfl, ?_⟩
  · intro e he
    simp only [bigVoteSnapshot, rawOf, truthy, if_true, ownEntries, List.mem_singleton] at he
    rw [he]
    rfl
  · have e1 : bigVoteResult.map (fun s => s.score) = [9007199254740992] := rfl
    have e2 : numericSum (ownEntries bigVotes) = 9007199254740994 := rfl
    rw [e1, e2]
    decide

/-- C1 (amended): whenever the snapshot callback produces its list, that list is
a rearrangement of one suggestion per root entry, in which the suggestion of an
entry has the entry's key as id and, when the numeric values of the entry's
`votes` field are integers whose running totals (in enumeration order) are all
safe integers, has as score the sum of exactly those values of `votes` that are
numbers (every other value adds nothing); when `votes` is absent the score is
`0`. -/
theorem score_is_sum_when_totals_safe (clock : Nat → Int) (k : Nat) (snapshotVal : JVal)
    (out : List Suggestion) (k2 : Nat)
    (h : snapshotCallback clock k snapshotVal = .ok (out, k2)) :
    ∃ parsed, parseSnapshot clock k snapshotVal = .ok (parsed, k2) ∧ out.Perm parsed ∧
      List.Forall₂
        (fun e s => s.id = e.1 ∧ ∃ votes, getProp e.2 "votes" = .ok votes ∧
          (totalsSafe (ownEntries votes) = true → s.score = numericSum (ownEntries votes)) ∧
          (votes = .undefined → s.score = 0))
        (ownEntries (rawOf snapshotVal)) parsed := by
  obtain ⟨parsed, hp, rfl⟩ := snapshotCallback_ok h
  refine ⟨parsed, hp, jsSort_perm _ _, ?_⟩
  refine (parseSnapshot_forall₂ hp).imp ?_
  rintro e s ⟨i, j, _, _, he⟩
  obtain ⟨hn, mapped, k1, _, _, _, _, hid, _, _, _, _, hscore, _⟩ := parseEntry_ok he
  refine ⟨hid, readProp e.2 "votes", getProp_of_not_nullish hn _, ?_, ?_⟩
  · intro hsafe
    rw [hscore, scoreOf_numericVotes _ hsafe]
  · intro hv
    rw [hscore, hv]
    rfl

/-- Witness for C1 (amended) on end-to-end scenario 2: votes `{c1: 1, c2: -1}` have
safe running totals `1`, `0` and give score `0`. -/
theorem score_is_sum_when_totals_safe_witness :
    snapshotCallback exampleClock 0 scenario2Snapshot = .ok (scenario2Result, 0) ∧
    (∀ e ∈ ownEntries (rawOf scenario2Snapshot),
      totalsSafe (ownEntries (readProp e.2 "votes")) = true) ∧
    (∀ s ∈ scenario2Result, s.score = 0) ∧
    ∃ parsed, parseSnapshot exampleClock 0 scenario2Snapshot = .ok (parsed, 0) ∧
      scenario2Result.Perm parsed ∧
      List.Forall₂
        (fun e s => s.id = e.1 ∧ ∃ votes, getProp e.2 "votes" = .ok votes ∧
          (totalsSafe (ownEntries votes) = true → s.score = numericSum (ownEntries votes)) ∧
          (votes = .undefined → s.score = 0))
        (ownEntries (rawOf scenario2Snapshot)) parsed :=
  ⟨rfl,
    by
      intro e he
      simp only [scenario2Snapshot, rawOf, truthy, if_true, ownEntries,
        List.mem_singleton] at he
      rw [he]
      rfl,
    by simp [scenario2Result],
    score_is_sum_when_totals_safe exampleClock 0 scenario2Snapshot scenario2Result 0 rfl⟩

/-- C2: whenever the snapshot callback produces its list, the list is ordered by
score descending and then `createdAt` descending: for positions `i < j`, either
the score at `i` is greater, or the scores are equal and `createdAt` at `i` is
at least `createdAt` at `j`. -/
theorem suggestions_ordered (clock : Nat → Int) (k : Nat) (snapshotVal : JVal)
    (out : List Suggestion) (k2 : Nat)
    (h : snapshotCallback clock k snapshotVal = .ok (out, k2)) :
    ∀ i j : Fin out.length, i < j →
      (out.get i).score > (out.get j).score ∨
        ((out.get i).score = (out.get j).score ∧
          (out.get i).createdAt ≥ (out.get j).createdAt) := by
  obtain ⟨parsed, _, rfl⟩ := snapshotCallback_ok h
  intro i j hij
  exact List.pairwise_iff_get.mp (jsSort_suggestions_ranked parsed) i j hij

/-- Witness for C2 on a snapshot of three suggestions that the sort rearranges. -/
theorem suggestions_ordered_witness :
    snapshotCallback exampleClock 0 rankingSnapshot = .ok (rankingResult, 1) ∧
    ∀ i j : Fin rankingResult.length, i < j →
      (rankingResult.get i).score > (rankingResult.get j).score ∨
        ((rankingResult.get i).score = (rankingResult.get j).score ∧
          (rankingResult.get i).createdAt ≥ (rankingResult.get j).createdAt) :=
  ⟨rfl, suggestions_ordered exampleClock 0 rankingSnapshot rankingResult 1 rfl⟩

/-- Counterexample to C3 as stated: two suggestions that tie on score and on
`createdAt`.  The one at position 1 satisfies the ranking condition against the
one at position 0 and yet does not appear before it. -/
theorem before_iff_ranked_fails_on_tie :
    snapshotCallback exampleClock 0 tieSnapshot = .ok (tieResult, 0) ∧
    ¬ (∀ i j : Fin tieResult.length, i < j ↔
        ((tieResult.get i).score > (tieResult.get j).score ∨
          ((tieResult.get i).score = (tieResult.get j).score ∧
            (tieResult.get i).createdAt ≥ (tieResult.get j).createdAt))) := by
  refine ⟨rfl, ?_⟩
  intro hall
  have h10 := (hall ⟨1, by decide⟩ ⟨0, by decide⟩).mpr (Or.inr ⟨rfl, le_refl _⟩)
  exact absurd h10 (by decide)

/-- C3 (amended): whenever the snapshot callback produces its list, for all
positions `i`, `j` whose suggestions do not tie on both score and `createdAt`,
the suggestion at `i` appears before the one at `j` if and only if its score is
greater, or the scores are equal and its `createdAt` is at least the other. -/
theorem before_iff_ranked_of_not_tied (clock : Nat → Int) (k : Nat) (snapshotVal : JVal)
    (out : List Suggestion) (k2 : Nat)
    (h : snapshotCallback clock k snapshotVal = .ok (out, k2))
    (i j : Fin out.length)
    (hne : ¬ ((out.get i).score = (out.get j).score ∧
      (out.get i).createdAt = (out.get j).createdAt)) :
    i < j ↔
      ((out.get i).score > (out.get j).score ∨
        ((out.get i).score = (out.get j).score ∧
          (out.get i).createdAt ≥ (out.get j).createdAt)) := by
  obtain ⟨parsed, _, rfl⟩ := snapshotCallback_ok h
  have hsorted := List.pairwise_iff_get.mp (jsSort_suggestions_ranked parsed)
  constructor
  · intro hij
    exact hsorted i j hij
  · intro hr
    by_contra hnot
    rcases lt_or_eq_of_le (not_lt.mp hnot) with hji | hji
    · have hr2 := hsorted j i hji
      unfold rankedBefore at hr2
      apply hne
      omega
    · subst hji
      exact hne ⟨rfl, rfl⟩

/-- Witness for C3 (amended): positions 0 and 1 of the result on `rankingSnapshot`. -/
theorem before_iff_ranked_of_not_tied_witness :
    snapshotCallback exampleClock 0 rankingSnapshot = .ok (rankingResult, 1) ∧
    ((⟨0, by decide⟩ : Fin rankingResult.length) < ⟨1, by decide⟩ ↔
      ((rankingResult.get ⟨0, by decide⟩).score > (rankingResult.get ⟨1, by decide⟩).score ∨
        ((rankingResult.get ⟨0, by decide⟩).score = (rankingResult.get ⟨1, by decide⟩).score ∧
          (rankingResult.get ⟨0, by decide⟩).createdAt
            ≥ (rankingResult.get ⟨1, by decide⟩).createdAt))) :=
  ⟨rfl, before_iff_ranked_of_not_tied exampleClock 0 rankingSnapshot rankingResult 1 rfl
    ⟨0, by decide⟩ ⟨1, by decide⟩ (by decide)⟩

theorem parseEntry_total {value : JVal} (h : entryReadable value = true)
    (clock : Nat → Int) (k : Nat) (id : String) :
    ∃ s k2, parseEntry clock k id value = .ok (s, k2) := by
  unfold entryReadable at h
  simp only [Bool.and_eq_true, Bool.not_eq_true', List.all_eq_true] at h
  obtain ⟨hn, hc⟩ := h
  rw [parseEntry_of_not_nullish clock k id hn]
  obtain ⟨mapped, k1, hm⟩ := mapEntries_total (parseComment clock) (commentEntries value)
    (fun e he i => ⟨_, _, parseComment_of_not_nullish clock i e.1 (hc e he)⟩) k
  rw [hm]
  exact ⟨_, _, rfl⟩

theorem parseSnapshot_total {snapshotVal : JVal} (h : snapshotReadable snapshotVal = true)
    (clock : Nat → Int) (k : Nat) :
    ∃ parsed k2, parseSnapshot clock k snapshotVal = .ok (parsed, k2) := by
  unfold snapshotReadable at h
  simp only [List.all_eq_true] at h
  rw [parseSnapshot_eq]
  exact mapEntries_total (parseEntry clock) _
    (fun e he i => parseEntry_total (h e he) clock i e.1) k

/-- Counterexample to C4 as stated: an entry that lacks `votes` and `createdAt`
and whose only comment entry is `null`.  The callback raises a `TypeError`. -/
theorem missing_fields_with_null_comment_raises :
    (ownEntries (rawOf nullCommentSnapshot)).map Prod.fst = ["s1"] ∧
    (∀ e ∈ ownEntries (rawOf nullCommentSnapshot),
      getProp e.2 "votes" = .ok .undefined ∧ getProp e.2 "createdAt" = .ok .undefined) ∧
    snapshotCallback exampleClock 0 nullCommentSnapshot = .error .typeError := by
  refine ⟨rfl, ?_, rfl⟩
  intro e he
  simp only [nullCommentSnapshot, rawOf, truthy, if_true, ownEntries,
    List.mem_singleton] at he
  rw [he]
  exact ⟨rfl, rfl⟩

/-- C4 (amended): for every raw snapshot in which no suggestion entry is `null`
and no comment entry under a truthy `comments` field is `null`, whichever of the
optional fields its entries lack, the callback does not raise; its list is the
sorted `parsed` list, in which the suggestion of an entry has score `0` when
`votes` is missing, no comments when
`comments` is missing, the stored `createdAt` when that is a number, and a clock
read made during this normalisation when `createdAt` is missing or not a number. -/
theorem missing_optional_fields_defaulted (clock : Nat → Int) (k : Nat) (snapshotVal : JVal)
    (h : snapshotReadable snapshotVal = true) :
    ∃ parsed k2, parseSnapshot clock k snapshotVal = .ok (parsed, k2) ∧
      snapshotCallback clock k snapshotVal = .ok (jsSort suggestionCmp parsed, k2) ∧
      List.Forall₂
        (fun e s => s.id = e.1 ∧
          (getProp e.2 "votes" = .ok .undefined → s.score = 0) ∧
          (getProp e.2 "comments" = .ok .undefined → s.comments = []) ∧
          (∀ n, getProp e.2 "createdAt" = .ok (.num n) → s.createdAt = n) ∧
          (∀ x, getProp e.2 "createdAt" = .ok x → (∀ n, x ≠ .num n) →
            ∃ j, k ≤ j ∧ j < k2 ∧ s.createdAt = clock j))
        (ownEntries (rawOf snapshotVal)) parsed := by
  obtain ⟨parsed, k2, hp⟩ := parseSnapshot_total h clock k
  refine ⟨parsed, k2, hp, snapshotCallback_of_parsed hp, ?_⟩
  refine (parseSnapshot_forall₂ hp).imp ?_
  rintro e s ⟨i, j, hi, hj, he⟩
  obtain ⟨hn, mapped, k1, hm, hk1, _, hk2, hid, _, _, _, hat, hscore, hcs⟩ := parseEntry_ok he
  refine ⟨hid, ?_, ?_, ?_, ?_⟩
  · intro hv
    rw [getProp_of_not_nullish hn] at hv
    simp only [Except.ok.injEq] at hv
    rw [hscore, hv]
    rfl
  · intro hv
    rw [getProp_of_not_nullish hn] at hv
    simp only [Except.ok.injEq] at hv
    rw [commentEntries_eq, hv] at hm
    simp only [truthy, Bool.false_eq_true, if_false, mapEntries, Except.ok.injEq,
      Prod.mk.injEq] at hm
    rw [hcs, ← hm.1]
    rfl
  · intro n hv
    rw [getProp_of_not_nullish hn] at hv
    simp only [Except.ok.injEq] at hv
    rw [hat, hv]
    rfl
  · intro x hv hx
    rw [getProp_of_not_nullish hn] at hv
    simp only [Except.ok.injEq] at hv
    rw [hv, coerceTime_not_num clock k1 hx] at hat hk2
    simp only at hat hk2
    exact ⟨k1, le_trans hi hk1, by omega, hat⟩

/-- Witness for C4: an entry with only a text, and an entry with votes and a
numeric `createdAt` but no comments. -/
theorem missing_optional_fields_defaulted_witness :
    snapshotReadable sparseSnapshot = true ∧
    snapshotCallback exampleClock 0 sparseSnapshot = .ok (sparseResult, 1) ∧
    ∃ parsed k2, parseSnapshot exampleClock 0 sparseSnapshot = .ok (parsed, k2) ∧
      snapshotCallback exampleClock 0 sparseSnapshot
        = .ok (jsSort suggestionCmp parsed, k2) ∧
      List.Forall₂
        (fun e s => s.id = e.1 ∧
          (getProp e.2 "votes" = .ok .undefined → s.score = 0) ∧
          (getProp e.2 "comments" = .ok .undefined → s.comments = []) ∧
          (∀ n, getProp e.2 "createdAt" = .ok (.num n) → s.createdAt = n) ∧
          (∀ x, getProp e.2 "createdAt" = .ok x → (∀ n, x ≠ .num n) →
            ∃ j, 0 ≤ j ∧ j < k2 ∧ s.createdAt = exampleClock j))
        (ownEntries (rawOf sparseSnapshot)) parsed :=
  ⟨rfl, rfl, missing_optional_fields_defaulted exampleClock 0 sparseSnapshot rfl⟩

/-- Counterexample to C5 as stated: a suggestion entry that is `null`, an array
root with a `null` element, and a comment entry that is `null` each make the
callback raise a `TypeError`. -/
theorem callback_raises_on_null_entry :
    snapshotCallback exampleClock 0 (.obj [("s1", .null)]) = .error .typeError ∧
    snapshotCallback exampleClock 0 (.arr [.obj [("text", .str "x")], .null])
      = .error .typeError ∧
    snapshotCallback exampleClock 0
      (.obj [("s1", .obj [("text", .str "x"), ("comments", .obj [("k1", .null)])])])
      = .error .typeError :=
  ⟨rfl, rfl, rfl⟩

/-- C5 (amended): the snapshot callback completes and produces a list for every
raw snapshot value in which no suggestion entry is `null` and no comment entry
under a truthy `comments` field is `null`, whatever else its shape: an absent,
primitive or array root, primitive or array entries, `votes` or `comments`
fields that are not maps. -/
theorem callback_completes_without_null_entries (clock : Nat → Int) (k : Nat)
    (snapshotVal : JVal) (h : snapshotReadable snapshotVal = true) :
    ∃ out k2, snapshotCallback clock k snapshotVal = .ok (out, k2) := by
  obtain ⟨parsed, k2, hp⟩ := parseSnapshot_total h clock k
  exact ⟨_, k2, snapshotCallback_of_parsed hp⟩

/-- Witness for C5 (amended): an array root holding a number, a string, and a
record whose `votes` is a string and whose `comments` is an array of primitives. -/
theorem callback_completes_without_null_entries_witness :
    snapshotReadable malformedSnapshot = true ∧
    ∃ out k2, snapshotCallback exampleClock 0 malformedSnapshot = .ok (out, k2) :=
  ⟨rfl, callback_completes_without_null_entries exampleClock 0 malformedSnapshot rfl⟩

/-- C6: an absent or `null` root gives the empty list without raising; and
whenever the snapshot callback produces its list, the list has as many
suggestions as the raw root has entries and is a rearrangement of one suggestion
per root entry, whose id is the entry's key and whose `text`, `author` and
`authorId` are the values read from the entry. -/
theorem one_suggestion_per_root_entry (clock : Nat → Int) (k : Nat) (snapshotVal : JVal) :
    snapshotCallback clock k .null = .ok ([], k) ∧
    snapshotCallback clock k .undefined = .ok ([], k) ∧
    ∀ out k2, snapshotCallback clock k snapshotVal = .ok (out, k2) →
      out.length = (ownEntries (rawOf snapshotVal)).length ∧
      ∃ parsed, parseSnapshot clock k snapshotVal = .ok (parsed, k2) ∧ out.Perm parsed ∧
        List.Forall₂
          (fun e s => s.id = e.1 ∧ getProp e.2 "text" = .ok s.text ∧
            getProp e.2 "author" = .ok s.author ∧ getProp e.2 "authorId" = .ok s.authorId)
          (ownEntries (rawOf snapshotVal)) parsed := by
  refine ⟨rfl, rfl, ?_⟩
  intro out k2 h
  obtain ⟨parsed, hp, rfl⟩ := snapshotCallback_ok h
  have hf := parseSnapshot_forall₂ hp
  refine ⟨?_, parsed, hp, jsSort_perm _ _, ?_⟩
  · rw [(jsSort_perm suggestionCmp parsed).length_eq, hf.length_eq]
  · refine hf.imp ?_
    rintro e s ⟨i, j, _, _, he⟩
    obtain ⟨hn, mapped, k1, _, _, _, _, hid, htext, hauthor, hauthorId, _⟩ := parseEntry_ok he
    refine ⟨hid, ?_, ?_, ?_⟩
    · rw [getProp_of_not_nullish hn, htext]
    · rw [getProp_of_not_nullish hn, hauthor]
    · rw [getProp_of_not_nullish hn, hauthorId]

/-- Witness for C6 on end-to-end scenario 2. -/
theorem one_suggestion_per_root_entry_witness :
    snapshotCallback exampleClock 0 scenario2Snapshot = .ok (scenario2Result, 0) ∧
    scenario2Result.length = (ownEntries (rawOf scenario2Snapshot)).length ∧
    ∃ parsed, parseSnapshot exampleClock 0 scenario2Snapshot = .ok (parsed, 0) ∧
      scenario2Result.Perm parsed ∧
      List.Forall₂
        (fun e s => s.id = e.1 ∧ getProp e.2 "text" = .ok s.text ∧
          getProp e.2 "author" = .ok s.author ∧ getProp e.2 "authorId" = .ok s.authorId)
        (ownEntries (rawOf scenario2Snapshot)) parsed :=
  ⟨rfl, (one_suggestion_per_root_entry exampleClock 0 scenario2Snapshot).2.2
    scenario2Result 0 rfl⟩

/-- C7: whenever the per-entry callback produces its suggestion, the comment list
is ordered by `createdAt` descending (for positions `i < j`, `createdAt` at `i`
is at least `createdAt` at `j`), and it is a rearrangement of one comment per
comment entry whose `createdAt` is the stored value when that is a number and a
clock read made during this run otherwise. -/
theorem comments_newest_first (clock : Nat → Int) (k : Nat) (id : String) (value : JVal)
    (s : Suggestion) (k2 : Nat) (h : parseEntry clock k id value = .ok (s, k2)) :
    (∀ i j : Fin s.comments.length, i < j →
      (s.comments.get i).createdAt ≥ (s.comments.get j).createdAt) ∧
    ∃ mapped, s.comments.Perm mapped ∧
      List.Forall₂
        (fun e c =>
          (∀ n, getProp e.2 "createdAt" = .ok (.num n) → c.createdAt = n) ∧
          (∀ x, getProp e.2 "createdAt" = .ok x → (∀ n, x ≠ .num n) →
            ∃ j, k ≤ j ∧ j < k2 ∧ c.createdAt = clock j))
        (commentEntries value) mapped := by
  obtain ⟨_, mapped, k1, hm, _, hk12, _, _, _, _, _, _, _, hcs⟩ := parseEntry_ok h
  rw [hcs]
  refine ⟨?_, mapped, jsSort_perm _ _, ?_⟩
  · intro i j hij
    exact List.pairwise_iff_get.mp (jsSort_comments_newest_first mapped) i j hij
  · refine (mapEntries_ok _ (parseComment_mono clock) _ _ _ _ hm).2.imp ?_
    rintro e c ⟨i, j, hi, hj, hc⟩
    cases hn : nullish e.2 with
    | true => rw [parseComment_of_nullish clock i e.1 hn] at hc; cases hc
    | false =>
      rw [parseComment_of_not_nullish clock i e.1 hn] at hc
      simp only [Except.ok.injEq, Prod.mk.injEq] at hc
      obtain ⟨rfl, hj2⟩ := hc
      constructor
      · intro n hv
        rw [getProp_of_not_nullish hn] at hv
        simp only [Except.ok.injEq] at hv
        simp only [hv, coerceTime_num]
      · intro x hv hx
        rw [getProp_of_not_nullish hn] at hv
        simp only [Except.ok.injEq] at hv
        rw [hv, coerceTime_not_num clock i hx] at hj2
        simp only at hj2
        refine ⟨i, hi, by omega, ?_⟩
        simp only [hv, coerceTime_not_num clock i hx]

/-- Witness for C7: an entry with three comments, the second without a stored time. -/
theorem comments_newest_first_witness :
    parseEntry exampleClock 0 "s1" commentedEntry = .ok (commentedResult, 1) ∧
    (∀ i j : Fin commentedResult.comments.length, i < j →
      (commentedResult.comments.get i).createdAt
        ≥ (commentedResult.comments.get j).createdAt) ∧
    ∃ mapped, commentedResult.comments.Perm mapped ∧
      List.Forall₂
        (fun e c =>
          (∀ n, getProp e.2 "createdAt" = .ok (.num n) → c.createdAt = n) ∧
          (∀ x, getProp e.2 "createdAt" = .ok x → (∀ n, x ≠ .num n) →
            ∃ j, 0 ≤ j ∧ j < 1 ∧ c.createdAt = exampleClock j))
        (commentEntries commentedEntry) mapped :=
  ⟨rfl, comments_newest_first exampleClock 0 "s1" commentedEntry commentedResult 1 rfl⟩

/-! ## Properties of the vote transform -/

theorem voteTransform_num_self (n : Int) : voteTransform (.num n) (.num n) = .null := by
  simp [voteTransform, strictEq]

theorem voteTransform_num_of_ne (n : Int) {cur : JVal} (h : cur ≠ .num n) :
    voteTransform (.num n) cur = .num n := by
  cases cur <;> simp_all [voteTransform, strictEq]

/-- C8: the update function that `handleVote` passes to the transaction gives,
for every slot value `cur` and every cast value `v`, `null` (the slot is removed)
when `cur === v` and `v` otherwise; for a numeric cast value that is: `null` when
the slot holds that same number and the cast value in every other case.  An
absent slot cast with `+1` becomes `+1`, and a slot holding `+1` cast with `+1`
becomes absent. -/
theorem vote_transform_toggles (cur v : JVal) :
    (strictEq cur v = true → voteTransform v cur = .null) ∧
    (strictEq cur v = false → voteTransform v cur = v) ∧
    (∀ n : Int, (cur = .num n → voteTransform (.num n) cur = .null) ∧
      (cur ≠ .num n → voteTransform (.num n) cur = .num n)) ∧
    voteTransform (.num 1) .null = .num 1 ∧
    voteTransform (.num 1) .undefined = .num 1 ∧
    voteTransform (.num 1) (.num 1) = .null := by
  refine ⟨?_, ?_, ?_, rfl, rfl, rfl⟩
  · intro h
    simp [voteTransform, h]
  · intro h
    simp [voteTransform, h]
  · intro n
    constructor
    · intro h
      rw [h]
      exact voteTransform_num_self n
    · intro h
      exact voteTransform_num_of_ne n h

/-- Witness for C8: a slot holding `-1` cast with `+1` becomes `+1`, and cast
with `-1` becomes absent. -/
theorem vote_transform_toggles_witness :
    strictEq (.num (-1)) (.num 1) = false ∧
    voteTransform (.num 1) (.num (-1)) = .num 1 ∧
    voteTransform (.num (-1)) (.num (-1)) = .null :=
  ⟨rfl, (vote_transform_toggles (.num (-1)) (.num 1)).2.1 rfl,
    ((vote_transform_toggles (.num (-1)) (.num 1)).2.2.1 (-1)).1 rfl⟩

/-- Counterexample to C9 as stated: a slot that already holds `+1`.  The first
cast of `+1` removes it and the second cast of `+1` stores `+1` again, so the
slot is not absent after the second cast. -/
theorem same_vote_twice_not_absent :
    voteTransform (.num 1) (.num 1) = .null ∧
    voteTransform (.num 1) (voteTransform (.num 1) (.num 1)) = .num 1 ∧
    voteTransform (.num 1) (voteTransform (.num 1) (.num 1)) ≠ .null :=
  ⟨rfl, rfl, fun h => JVal.noConfusion (show JVal.num 1 = JVal.null from h)⟩

/-- C9 (amended): for every numeric vote value `v` (in particular `-1` and `+1`)
and every slot value, casting `v` twice in a row leaves the slot absent when the
slot did not hold `v` before the first cast, and leaves it holding `v` when it
did. -/
theorem same_vote_twice (n : Int) (cur : JVal) :
    (cur ≠ .num n → voteTransform (.num n) (voteTransform (.num n) cur) = .null) ∧
    (cur = .num n → voteTransform (.num n) (voteTransform (.num n) cur) = .num n) := by
  constructor
  · intro h
    rw [voteTransform_num_of_ne n h]
    exact voteTransform_num_self n
  · intro h
    rw [h, voteTransform_num_self n]
    rfl

/-- Witness for C9 (amended): an absent slot cast with `-1` twice, and a slot
holding `-1` cast with `-1` twice. -/
theorem same_vote_twice_witness :
    JVal.null ≠ JVal.num (-1) ∧
    voteTransform (.num (-1)) (voteTransform (.num (-1)) .null) = .null ∧
    voteTransform (.num (-1)) (voteTransform (.num (-1)) (.num (-1))) = .num (-1) :=
  ⟨by simp, (same_vote_twice (-1) .null).1 (by simp), (same_vote_twice (-1) (.num (-1))).2 rfl⟩

/-- Counterexample to C10 as stated: a slot that already holds `+1`.  Casting
`+1` removes it, so the slot is absent between the two casts. -/
theorem up_then_down_passes_through_absent :
    voteTransform (.num 1) (.num 1) = .null ∧
    voteTransform (.num 1) (.num 1) ≠ .num 1 ∧
    voteTransform (.num (-1)) (voteTransform (.num 1) (.num 1)) = .num (-1) :=
  ⟨rfl, fun h => JVal.noConfusion (show JVal.null = JVal.num 1 from h), rfl⟩

/-- C10 (amended): for every slot value, casting `+1` and then `-1` leaves the
slot holding `-1`; the value between the two casts is `+1` when the slot did not
hold `+1` before the first cast, and the slot is absent between the two casts
when it did. -/
theorem up_then_down (cur : JVal) :
    voteTransform (.num (-1)) (voteTransform (.num 1) cur) = .num (-1) ∧
    (cur ≠ .num 1 → voteTransform (.num 1) cur = .num 1) ∧
    (cur = .num 1 → voteTransform (.num 1) cur = .null) := by
  refine ⟨?_, voteTransform_num_of_ne 1, ?_⟩
  · by_cases h : cur = .num 1
    · rw [h]
      rfl
    · rw [voteTransform_num_of_ne 1 h]
      rfl
  · intro h
    rw [h]
    rfl

/-- Witness for C10 (amended): an absent slot, and a slot holding `-1`. -/
theorem up_then_down_witness :
    JVal.null ≠ JVal.num 1 ∧
    voteTransform (.num (-1)) (voteTransform (.num 1) .null) = .num (-1) ∧
    voteTransform (.num 1) .null = .num 1 ∧
    voteTransform (.num 1) (.num (-1)) = .num 1 :=
  ⟨by simp, (up_then_down .null).1, (up_then_down .null).2.1 (by simp),
    (up_then_down (.num (-1))).2.1 (by simp)⟩

/-! ## Properties of the vote map -/

theorem lookup_assignOwn (props : List (String × JVal)) (key : String) (v : JVal)
    (name : String) :
    (assignOwn props key v).lookup name
      = if name = key then some v else props.lookup name := by
  induction props with
  | nil =>
    by_cases h : name = key
    · have hb : (name == key) = true := by simpa using h
      simp [assignOwn, List.lookup, h]
    · have hb : (name == key) = false := by simpa using h
      simp [assignOwn, List.lookup, h, hb]
  | cons p rest ih =>
    obtain ⟨k, x⟩ := p
    unfold assignOwn
    by_cases hk : key = k
    · subst hk
      by_cases h : name = key
      · have hb : (name == key) = true := by simpa using h
        simp [List.lookup, h]
      · have hb : (name == key) = false := by simpa using h
        simp [List.lookup, h, hb]
    · by_cases h : name = k
      · subst h
        have hne : ¬ name = key := fun e => hk e.symm
        simp [List.lookup, hk, hne]
      · have hb : (name == k) = false := by simpa using h
        simp only [hk, if_false, List.lookup, hb]
        exact ih

theorem lookup_setProp (props : List (String × JVal)) (key : String) (v : JVal)
    (name : String) (hname : name ≠ "__proto__") :
    (setProp props key v).lookup name
      = if name = key then some v else props.lookup name := by
  unfold setProp
  by_cases hk : key = "__proto__"
  · have hne : ¬ name = key := fun e => hname (e.trans hk)
    simp [hk, hne, hname]
  · simp only [hk, if_false]
    exact lookup_assignOwn props key v name

theorem lookup_foldl_of_not_mem (clientId : String) (name : String)
    (hname : name ≠ "__proto__")
    (l : List Suggestion) (hn : name ∉ l.map fun s => s.id) (acc : List (String × JVal)) :
    (l.foldl (fun votes suggestion => setProp votes suggestion.id (userVote clientId suggestion))
        acc).lookup name
      = acc.lookup name := by
  induction l generalizing acc with
  | nil => rfl
  | cons x l ih =>
    simp only [List.map_cons, List.mem_cons, not_or] at hn
    rw [List.foldl_cons, ih hn.2, lookup_setProp _ _ _ _ hname, if_neg hn.1]

theorem lookup_foldl_of_mem (clientId : String) (l : List Suggestion)
    (hid : (l.map fun s => s.id).Nodup) (s : Suggestion) (hs : s ∈ l)
    (hname : s.id ≠ "__proto__") (acc : List (String × JVal)) :
    (l.foldl (fun votes suggestion => setProp votes suggestion.id (userVote clientId suggestion))
        acc).lookup s.id
      = some (userVote clientId s) := by
  induction l generalizing acc with
  | nil => cases hs
  | cons x l ih =>
    simp only [List.map_cons, List.nodup_cons] at hid
    rw [List.foldl_cons]
    rcases List.mem_cons.mp hs with rfl | hs2
    · rw [lookup_foldl_of_not_mem clientId s.id hname l hid.1, lookup_setProp _ _ _ _ hname,
        if_pos rfl]
    · exact ih hid.2 hs2 _

/-- For a suggestion whose id is `__proto__` the read at line 458 is answered by
the prototype chain, not by a recorded vote. -/
theorem currentVote_of_proto (clientId : String) (l : List Suggestion) (s : Suggestion)
    (hname : s.id = "__proto__") : currentVote clientId l s = none := by
  unfold currentVote
  rw [if_pos hname]

theorem currentVote_of_mem (clientId : String) (l : List Suggestion)
    (hid : (l.map fun s => s.id).Nodup) (s : Suggestion) (hs : s ∈ l)
    (hname : s.id ≠ "__proto__") :
    currentVote clientId l s = some (userVote clientId s) := by
  unfold currentVote voteMap
  rw [if_neg hname]
  exact lookup_foldl_of_mem clientId l hid s hs hname []

theorem forall₂_map_eq {α β γ : Type} (f : β → γ) (g : α → γ) {l₁ : List α} {l₂ : List β}
    (h : List.Forall₂ (fun a b => f b = g a) l₁ l₂) : l₂.map f = l₁.map g := by
  induction h with
  | nil => rfl
  | cons hab _ ih => simp [hab, ih]

theorem forall₂_exists_of_mem_right {α β : Type} {R : α → β → Prop} {l₁ : List α}
    {l₂ : List β} (h : List.Forall₂ R l₁ l₂) {b : β} (hb : b ∈ l₂) : ∃ a ∈ l₁, R a b := by
  induction h with
  | nil => cases hb
  | cons hab _ ih =>
    rcases List.mem_cons.mp hb with rfl | hb2
    · exact ⟨_, List.mem_cons_self _ _, hab⟩
    · obtain ⟨a, ha, hr⟩ := ih hb2
      exact ⟨a, List.mem_cons_of_mem _ ha, hr⟩

/-- The `votes` field of a suggestion produced by the per-entry callback:
`value.votes || {}`. -/
theorem parseEntry_ok_votes {clock : Nat → Int} {k : Nat} {id : String} {value : JVal}
    {s : Suggestion} {k2 : Nat} (h : parseEntry clock k id value = .ok (s, k2)) :
    s.votes = if truthy (readProp value "votes") then readProp value "votes" else .obj [] := by
  cases hn : nullish value with
  | true => rw [parseEntry_of_nullish clock k id hn] at h; cases h
  | false =>
    rw [parseEntry_of_not_nullish clock k id hn] at h
    cases hm : mapEntries (parseComment clock) k (commentEntries value) with
    | error e => rw [hm] at h; cases h
    | ok r =>
      obtain ⟨mapped, k1⟩ := r
      rw [hm] at h
      simp only [Except.ok.injEq, Prod.mk.injEq] at h
      obtain ⟨rfl, _⟩ := h
      rfl

/-- The ids of the callback's list are distinct when the keys of the raw root are. -/
theorem snapshotCallback_ids_nodup {clock : Nat → Int} {k : Nat} {snapshotVal : JVal}
    {out : List Suggestion} {k2 : Nat}
    (h : snapshotCallback clock k snapshotVal = .ok (out, k2))
    (hkeys : ((ownEntries (rawOf snapshotVal)).map Prod.fst).Nodup) :
    (out.map fun s => s.id).Nodup := by
  obtain ⟨parsed, hp, rfl⟩ := snapshotCallback_ok h
  have hf : List.Forall₂ (fun (e : String × JVal) (s : Suggestion) => s.id = e.1)
      (ownEntries (rawOf snapshotVal)) parsed := by
    refine (parseSnapshot_forall₂ hp).imp ?_
    rintro e s ⟨i, j, _, _, he⟩
    obtain ⟨_, _, _, _, _, _, _, hid, _⟩ := parseEntry_ok he
    exact hid
  have hmap := forall₂_map_eq (fun s : Suggestion => s.id) Prod.fst hf
  rw [((jsSort_perm suggestionCmp parsed).map _).nodup_iff, hmap]
  exact hkeys

theorem userVote_eq (clientId : String) (s : Suggestion) :
    userVote clientId s
      = match (ownEntries s.votes).lookup clientId with
        | some v => if nullish v then .num 0 else v
        | none => .num 0 := by
  unfold userVote readKey lookupProp
  cases hn : nullish s.votes with
  | true =>
    have he : ownEntries s.votes = [] := by
      cases hv : s.votes <;> simp_all [nullish, ownEntries]
    simp [he, nullish]
  | false =>
    cases hl : (ownEntries s.votes).lookup clientId with
    | none => simp [nullish]
    | some v => simp

/-- Counterexample to C11 as stated: a vote map that stores `5` under client
`c1`.  The current vote of `c1` on that suggestion is `5`, which is none of
`-1`, `0`, `+1`. -/
theorem current_vote_outside_range :
    snapshotCallback exampleClock 0 oddVoteSnapshot = .ok (oddVoteResult, 0) ∧
    ∃ s ∈ oddVoteResult, currentVote "c1" oddVoteResult s = some (.num 5) ∧
      ¬ (currentVote "c1" oddVoteResult s = some (.num (-1)) ∨
        currentVote "c1" oddVoteResult s = some (.num 0) ∨
        currentVote "c1" oddVoteResult s = some (.num 1)) := by
  refine ⟨rfl, oddVoteResult.get ⟨0, by decide⟩, List.get_mem _ _ _, rfl, ?_⟩
  have e : currentVote "c1" oddVoteResult (oddVoteResult.get ⟨0, by decide⟩)
      = some (.num 5) := rfl
  rw [e]
  simp

/-- C11 (amended): for every client id and every suggestion of the callback's
list whose id is not `__proto__` (the keys of the raw root being distinct), the
current vote computed by `voteMap` is a read of the suggestion's vote map, which
is the entry's `votes` field or the empty map when that field is falsy: it is
the value stored under the client id, or `0` when the client has no entry or the
entry is `null`; it is one of `-1`, `0`, `+1` when the value stored under the
client id, if any, is `-1` or `+1`. -/
theorem current_vote_reads_vote_map (clock : Nat → Int) (k : Nat) (snapshotVal : JVal)
    (out : List Suggestion) (k2 : Nat) (clientId : String) (s : Suggestion)
    (h : snapshotCallback clock k snapshotVal = .ok (out, k2))
    (hkeys : ((ownEntries (rawOf snapshotVal)).map Prod.fst).Nodup)
    (hs : s ∈ out) (hname : s.id ≠ "__proto__") :
    (∃ e ∈ ownEntries (rawOf snapshotVal), s.id = e.1 ∧ ∃ votes,
      getProp e.2 "votes" = .ok votes ∧ s.votes = if truthy votes then votes else .obj []) ∧
    currentVote clientId out s = some (userVote clientId s) ∧
    ((ownEntries s.votes).lookup clientId = none →
      currentVote clientId out s = some (.num 0)) ∧
    (∀ v, (ownEntries s.votes).lookup clientId = some v → nullish v = true →
      currentVote clientId out s = some (.num 0)) ∧
    (∀ v, (ownEntries s.votes).lookup clientId = some v → nullish v = false →
      currentVote clientId out s = some v) ∧
    ((∀ v, (ownEntries s.votes).lookup clientId = some v → v = .num 1 ∨ v = .num (-1)) →
      currentVote clientId out s = some (.num (-1)) ∨
        currentVote clientId out s = some (.num 0) ∨
        currentVote clientId out s = some (.num 1)) := by
  have hcur : currentVote clientId out s = some (userVote clientId s) :=
    currentVote_of_mem clientId out (snapshotCallback_ids_nodup h hkeys) s hs hname
  refine ⟨?_, hcur, ?_, ?_, ?_, ?_⟩
  · obtain ⟨parsed, hp, rfl⟩ := snapshotCallback_ok h
    have hs2 : s ∈ parsed := (jsSort_perm suggestionCmp parsed).subset hs
    obtain ⟨e, he, i, j, _, _, hij⟩ := forall₂_exists_of_mem_right (parseSnapshot_forall₂ hp) hs2
    obtain ⟨hn, _, _, _, _, _, _, hid, _⟩ := parseEntry_ok hij
    exact ⟨e, he, hid, readProp e.2 "votes", getProp_of_not_nullish hn _,
      parseEntry_ok_votes hij⟩
  · intro hl
    rw [hcur, userVote_eq, hl]
  · intro v hl hv
    rw [hcur, userVote_eq, hl]
    simp [hv]
  · intro v hl hv
    rw [hcur, userVote_eq, hl]
    simp [hv]
  · intro hall
    rw [hcur, userVote_eq]
    cases hl : (ownEntries s.votes).lookup clientId with
    | none => right; left; rfl
    | some v =>
      rcases hall v hl with rfl | rfl
      · right; right; rfl
      · left; rfl

/-- Witness for C11 (amended): client `c1` on the first suggestion of the result
on `rankingSnapshot`, whose id is `b` and whose vote map stores `+1` under `c1`. -/
theorem current_vote_reads_vote_map_witness :
    snapshotCallback exampleClock 0 rankingSnapshot = .ok (rankingResult, 1) ∧
    ((ownEntries (rawOf rankingSnapshot)).map Prod.fst).Nodup ∧
    rankingResult.get ⟨0, by decide⟩ ∈ rankingResult ∧
    (rankingResult.get ⟨0, by decide⟩).id ≠ "__proto__" ∧
    currentVote "c1" rankingResult (rankingResult.get ⟨0, by decide⟩) = some (.num 1) ∧
    currentVote "c1" rankingResult (rankingResult.get ⟨0, by decide⟩)
      = some (userVote "c1" (rankingResult.get ⟨0, by decide⟩)) :=
  ⟨rfl, by decide, List.get_mem _ _ _, by decide, rfl,
    (current_vote_reads_vote_map exampleClock 0 rankingSnapshot rankingResult 1 "c1"
      (rankingResult.get ⟨0, by decide⟩) rfl (by decide) (List.get_mem _ _ _) (by decide)).2.1⟩

/-- What the comment list of a successfully parsed entry holds: a rearrangement of
one comment per visited comment entry, whose `text`, `stance`, `author` and
`authorId` are the stored properties, and whose id is the stored `id` property
when the record has one and the key otherwise. -/
theorem comments_one_per_entry (clock : Nat → Int) (k : Nat) (id : String) (value : JVal)
    (s : Suggestion) (k2 : Nat) (h : parseEntry clock k id value = .ok (s, k2)) :
    s.comments.length = (commentEntries value).length ∧
    ∃ mapped, s.comments.Perm mapped ∧
      List.Forall₂
        (fun e c =>
          ((ownEntries e.2).lookup "id" = none → c.id = .str e.1) ∧
          (∀ v, (ownEntries e.2).lookup "id" = some v → c.id = v) ∧
          c.text = lookupProp (ownEntries e.2) "text" ∧
          c.stance = lookupProp (ownEntries e.2) "stance" ∧
          c.author = lookupProp (ownEntries e.2) "author" ∧
          c.authorId = lookupProp (ownEntries e.2) "authorId")
        (commentEntries value) mapped := by
  obtain ⟨_, mapped, k1, hm, _, _, _, _, _, _, _, _, _, hcs⟩ := parseEntry_ok h
  have hf := (mapEntries_ok _ (parseComment_mono clock) _ _ _ _ hm).2
  rw [hcs]
  refine ⟨?_, mapped, jsSort_perm _ _, ?_⟩
  · rw [(jsSort_perm commentCmp mapped).length_eq, hf.length_eq]
  · refine hf.imp ?_
    rintro e c ⟨i, j, _, _, hc⟩
    cases hn : nullish e.2 with
    | true => rw [parseComment_of_nullish clock i e.1 hn] at hc; cases hc
    | false =>
      rw [parseComment_of_not_nullish clock i e.1 hn] at hc
      simp only [Except.ok.injEq, Prod.mk.injEq] at hc
      obtain ⟨rfl, _⟩ := hc
      refine ⟨?_, ?_, rfl, rfl, rfl, rfl⟩
      · intro hl
        simp only [hl]
      · intro v hl
        simp only [hl]

/-- C12, at the failing input: a comment stored under key `k1` whose record
carries its own `id` field `"other"`.  The normalised comment list has one
comment for the one key, with `text`, `stance`, `author` and `authorId` carried
over, but its id is the stored `"other"`, not the key `k1`. -/
theorem stored_comment_id_replaces_key :
    parseEntry exampleClock 0 "s1" ownIdEntry = .ok (ownIdResult, 0) ∧
    (commentEntries ownIdEntry).map Prod.fst = ["k1"] ∧
    ownIdResult.comments.map (fun c => c.id) = [.str "other"] ∧
    ownIdResult.comments.map (fun c => c.id) ≠ [.str "k1"] := by
  refine ⟨rfl, rfl, rfl, ?_⟩
  intro hne
  have e : ownIdResult.comments.map (fun c => c.id) = [.str "other"] := rfl
  rw [e] at hne
  simp at hne

end Voter
